import Mathlib

/-!
Verification of the kinode packaging scripts.

This file gives a shallow embedding of the Python build/packaging scripts:
  * scripts/build-package.py   (zip_directory, build_and_zip_package, main)
  * modules/chess/build.py     (compile_process)
  * start-package.py and modules/chess/start-package.py (the install clients)
and proves or refutes the frozen claims about them.

Modelling conventions:
  * A directory tree is an inductive value: ordered subdirectory list and
    ordered file list, in the order os.walk / os.scandir yields them.
  * File contents are byte lists; st_mode and mtimes are naturals.
  * A zip archive is modelled as its ordered sequence of entries (the
    serialization performed by Python's zipfile module is a deterministic
    function of that sequence, so entry-sequence identity is byte identity).
  * Entry paths are kept as component lists; rendering to the slash-joined
    arcname string is a separate function.
  * External process invocations (kit, cargo, wasm-tools, sh) are opaque:
    their exit codes are inputs of the model, and a raised
    CalledProcessError carries exactly the argv and the exit code, which is
    all subprocess.check_call puts into the exception.
-/

/-- One regular file as os.walk sees it: name, byte contents, st_mode
(the full mode word, whose low bits are the permission bits), and mtime.
`zip_directory` in scripts/build-package.py reads the name, the contents
and the mode; it never reads the mtime. -/
structure FsFile where
  name : String
  content : List Nat
  mode : Nat
  mtime : Nat
deriving DecidableEq, Repr

mutual

/-- A directory tree: the ordered subdirectories and the ordered files of
the root, mirroring the (dirs, files) parts of an os.walk tuple. -/
inductive FsTree : Type where
  | mk : FsDirs → List FsFile → FsTree

/-- The ordered named subdirectories of a directory. -/
inductive FsDirs : Type where
  | nil : FsDirs
  | cons : String → FsTree → FsDirs → FsDirs

end

/-- One archive entry as zip_directory builds it: a ZipInfo plus the data
passed to writestr. `path` is the relative path as components; `isDir`
records whether this is the explicit directory entry (whose string arcname
gets a trailing slash). -/
structure ZipEntry where
  path : List String
  isDir : Bool
  data : List Nat
  date_time : Nat × Nat × Nat × Nat × Nat × Nat
  external_attr : Nat
deriving DecidableEq, Repr

/-- The arcname string written into the archive: the components joined by
slashes, with the trailing slash zip_directory appends for directories. -/
def ZipEntry.arcname (e : ZipEntry) : String :=
  String.intercalate "/" e.path ++ (if e.isDir then "/" else "")

/-- Directory entry of zip_directory: empty payload, fixed mode 0o755
shifted into the external attributes together with the MS-DOS directory
flag 0x10, and the fixed date 2023-06-19 00:00:00. -/
def mkDirEntry (p : List String) : ZipEntry :=
  { path := p
    isDir := true
    data := []
    date_time := (2023, 6, 19, 0, 0, 0)
    external_attr := 0o755 <<< 16 ||| 0x10 }

/-- File entry of zip_directory: the file's bytes, its st_mode shifted
into the external attributes, and the fixed date 2023-06-19 00:00:00. -/
def mkFileEntry (p : List String) (f : FsFile) : ZipEntry :=
  { path := p
    isDir := false
    data := f.content
    date_time := (2023, 6, 19, 0, 0, 0)
    external_attr := f.mode <<< 16 }

mutual

/-- Entries that zip_directory emits while os.walk visits the directory at
relative path `pre` inside the archived root: first one directory entry per
immediate subdirectory, then one file entry per immediate file, then
(recursively, in order) the entries for each subdirectory's own walk. -/
def zipEntriesAux (pre : List String) : FsTree → List ZipEntry
  | .mk dirs files =>
      zipDirEntries pre dirs
        ++ files.map (fun f => mkFileEntry (pre ++ [f.name]) f)
        ++ zipEntriesChildren pre dirs

/-- The directory entries for the immediate subdirectories, in order. -/
def zipDirEntries (pre : List String) : FsDirs → List ZipEntry
  | .nil => []
  | .cons n _ rest => mkDirEntry (pre ++ [n]) :: zipDirEntries pre rest

/-- The recursive walks into each subdirectory, concatenated in order. -/
def zipEntriesChildren (pre : List String) : FsDirs → List ZipEntry
  | .nil => []
  | .cons n t rest => zipEntriesAux (pre ++ [n]) t ++ zipEntriesChildren pre rest

end

/-- zip_directory from scripts/build-package.py: the full entry sequence
of the archive built from the given directory tree. The archive root
itself gets no entry; all paths are relative to it. -/
def zip_directory (t : FsTree) : List ZipEntry :=
  zipEntriesAux [] t

mutual

/-- The same tree with every file's mtime set to 0: the projection of a
tree onto the data zip_directory can observe plus names/structure. -/
def eraseMtimes : FsTree → FsTree
  | .mk dirs files =>
      .mk (eraseMtimesDirs dirs)
        (files.map (fun f => { f with mtime := 0 }))

/-- eraseMtimes mapped over a subdirectory list. -/
def eraseMtimesDirs : FsDirs → FsDirs
  | .nil => .nil
  | .cons n t rest => .cons n (eraseMtimes t) (eraseMtimesDirs rest)

end

mutual

/-- zip_directory never reads mtimes: walking the mtime-erased tree emits
the same entries. -/
theorem zipEntriesAux_eraseMtimes (pre : List String) (t : FsTree) :
    zipEntriesAux pre (eraseMtimes t) = zipEntriesAux pre t := by
  cases t with
  | mk dirs files =>
    show zipDirEntries pre (eraseMtimesDirs dirs)
        ++ (files.map (fun f => { f with mtime := 0 })).map
            (fun f => mkFileEntry (pre ++ [f.name]) f)
        ++ zipEntriesChildren pre (eraseMtimesDirs dirs)
      = _
    rw [zipDirEntries_eraseMtimes, zipEntriesChildren_eraseMtimes, List.map_map]
    rfl

/-- Subdirectory entries ignore mtimes. -/
theorem zipDirEntries_eraseMtimes (pre : List String) (ds : FsDirs) :
    zipDirEntries pre (eraseMtimesDirs ds) = zipDirEntries pre ds := by
  cases ds with
  | nil => rfl
  | cons n t rest =>
    show mkDirEntry (pre ++ [n]) :: zipDirEntries pre (eraseMtimesDirs rest) = _
    rw [zipDirEntries_eraseMtimes]
    rfl

/-- Recursive child walks ignore mtimes. -/
theorem zipEntriesChildren_eraseMtimes (pre : List String) (ds : FsDirs) :
    zipEntriesChildren pre (eraseMtimesDirs ds) = zipEntriesChildren pre ds := by
  cases ds with
  | nil => rfl
  | cons n t rest =>
    show zipEntriesAux (pre ++ [n]) (eraseMtimes t)
        ++ zipEntriesChildren pre (eraseMtimesDirs rest) = _
    rw [zipEntriesAux_eraseMtimes, zipEntriesChildren_eraseMtimes]
    rfl

end

/-- Claim C2: zip_directory is deterministic as a function of tree content
and permission bits. If two directory trees agree on names, structure,
file contents and modes (i.e. become equal once mtimes are erased), the
archives they produce are identical, even when the filesystem mtimes
differ between the two invocations. -/
theorem zip_directory_deterministic (t1 t2 : FsTree)
    (h : eraseMtimes t1 = eraseMtimes t2) :
    zip_directory t1 = zip_directory t2 := by
  have h1 := zipEntriesAux_eraseMtimes [] t1
  have h2 := zipEntriesAux_eraseMtimes [] t2
  unfold zip_directory
  rw [← h1, ← h2, h]

/-- A sample tree whose file mtimes are the given values: one top-level
file and one file inside a subdirectory. -/
def sampleTree (m1 m2 : Nat) : FsTree :=
  .mk (.cons "sub" (.mk .nil [⟨"inner.txt", [104, 105], 0o644, m2⟩]) .nil)
    [⟨"top.txt", [33], 0o755, m1⟩]

/-- Witness for claim C2: the sample tree with mtimes (5, 6) and with
mtimes (700, 800) archives to the same entry sequence. -/
theorem zip_directory_deterministic_witness :
    eraseMtimes (sampleTree 5 6) = eraseMtimes (sampleTree 700 800) ∧
      zip_directory (sampleTree 5 6) = zip_directory (sampleTree 700 800) :=
  ⟨rfl, zip_directory_deterministic (sampleTree 5 6) (sampleTree 700 800) rfl⟩

mutual

/-- The (relative path, file) pairs of the tree below `pre`, in walk
order: the files of this directory, then the files of each subdirectory's
subtree in order. This is the filesystem content zip_directory reads. -/
def walkFilesAux (pre : List String) : FsTree → List (List String × FsFile)
  | .mk dirs files =>
      files.map (fun f => (pre ++ [f.name], f)) ++ walkFilesChildren pre dirs

/-- walkFilesAux over each subdirectory, concatenated in order. -/
def walkFilesChildren (pre : List String) : FsDirs → List (List String × FsFile)
  | .nil => []
  | .cons n t rest => walkFilesAux (pre ++ [n]) t ++ walkFilesChildren pre rest

end

/-- All (relative path, file) pairs of a tree. -/
def treeFiles (t : FsTree) : List (List String × FsFile) :=
  walkFilesAux [] t

/-- Every entry of zipDirEntries is the canonical directory entry for one
of the named immediate subdirectories. -/
theorem mem_zipDirEntries (pre : List String) (ds : FsDirs) (e : ZipEntry)
    (he : e ∈ zipDirEntries pre ds) : ∃ n, e = mkDirEntry (pre ++ [n]) := by
  cases ds with
  | nil => cases he
  | cons n t rest =>
    rcases List.mem_cons.mp he with h | h
    · exact ⟨n, h⟩
    · exact mem_zipDirEntries pre rest e h

mutual

/-- Any entry emitted during the walk of the subtree at `pre` is either a
canonical directory entry, or the canonical file entry of a file the
subtree actually contains at that path (so it carries that file's mode and
contents); either way it bears the fixed 2023-06-19 date. -/
theorem mem_zipEntriesAux_shape (pre : List String) (t : FsTree) (e : ZipEntry)
    (he : e ∈ zipEntriesAux pre t) :
    e.date_time = (2023, 6, 19, 0, 0, 0) ∧
      (e.isDir = true → e = mkDirEntry e.path) ∧
      (e.isDir = false →
        ∃ f : FsFile, (e.path, f) ∈ walkFilesAux pre t ∧ e = mkFileEntry e.path f) := by
  cases t with
  | mk dirs files =>
    have he' : e ∈ zipDirEntries pre dirs
        ∨ e ∈ files.map (fun f => mkFileEntry (pre ++ [f.name]) f)
        ∨ e ∈ zipEntriesChildren pre dirs := by
      have : e ∈ zipDirEntries pre dirs
          ++ files.map (fun f => mkFileEntry (pre ++ [f.name]) f)
          ++ zipEntriesChildren pre dirs := he
      simpa [List.mem_append, or_assoc] using this
    rcases he' with h | h | h
    · rcases mem_zipDirEntries pre dirs e h with ⟨n, rfl⟩
      refine ⟨rfl, fun _ => rfl, fun hbad => ?_⟩
      simp [mkDirEntry] at hbad
    · rcases List.mem_map.mp h with ⟨f, hf, rfl⟩
      refine ⟨rfl, fun hbad => ?_, fun _ => ?_⟩
      · simp [mkFileEntry] at hbad
      · refine ⟨f, ?_, rfl⟩
        show _ ∈ walkFilesAux pre (.mk dirs files)
        exact List.mem_append.mpr (.inl (List.mem_map.mpr ⟨f, hf, rfl⟩))
    · have hrec := mem_zipEntriesChildren_shape pre dirs e h
      refine ⟨hrec.1, hrec.2.1, fun hfile => ?_⟩
      rcases hrec.2.2 hfile with ⟨f, hmem, hform⟩
      refine ⟨f, ?_, hform⟩
      show _ ∈ walkFilesAux pre (.mk dirs files)
      exact List.mem_append.mpr (.inr hmem)

/-- The same shape fact for the concatenated walks of the subdirectories. -/
theorem mem_zipEntriesChildren_shape (pre : List String) (ds : FsDirs) (e : ZipEntry)
    (he : e ∈ zipEntriesChildren pre ds) :
    e.date_time = (2023, 6, 19, 0, 0, 0) ∧
      (e.isDir = true → e = mkDirEntry e.path) ∧
      (e.isDir = false →
        ∃ f : FsFile, (e.path, f) ∈ walkFilesChildren pre ds ∧ e = mkFileEntry e.path f) := by
  cases ds with
  | nil => cases he
  | cons n t rest =>
    have he' : e ∈ zipEntriesAux (pre ++ [n]) t ∨ e ∈ zipEntriesChildren pre rest := by
      have : e ∈ zipEntriesAux (pre ++ [n]) t ++ zipEntriesChildren pre rest := he
      simpa [List.mem_append] using this
    rcases he' with h | h
    · have hrec := mem_zipEntriesAux_shape (pre ++ [n]) t e h
      refine ⟨hrec.1, hrec.2.1, fun hfile => ?_⟩
      rcases hrec.2.2 hfile with ⟨f, hmem, hform⟩
      refine ⟨f, ?_, hform⟩
      show _ ∈ walkFilesChildren pre (.cons n t rest)
      exact List.mem_append.mpr (.inl hmem)
    · have hrec := mem_zipEntriesChildren_shape pre rest e h
      refine ⟨hrec.1, hrec.2.1, fun hfile => ?_⟩
      rcases hrec.2.2 hfile with ⟨f, hmem, hform⟩
      refine ⟨f, ?_, hform⟩
      show _ ∈ walkFilesChildren pre (.cons n t rest)
      exact List.mem_append.mpr (.inr hmem)

end

/-- Claim C8: every entry of a zip_directory archive is stamped with the
fixed date 2023-06-19 00:00:00; every directory entry carries mode 0o755
shifted into the external attributes, or-ed with the MS-DOS directory flag
0x10, and an empty payload; and every file entry is the canonical entry of
a file the archived tree contains at that path, so its external attributes
are that file's filesystem mode shifted by 16 bits. -/
theorem zip_directory_entry_attrs (t : FsTree) (e : ZipEntry)
    (he : e ∈ zip_directory t) :
    e.date_time = (2023, 6, 19, 0, 0, 0) ∧
      (e.isDir = true → e.external_attr = 0o755 <<< 16 ||| 0x10 ∧ e.data = []) ∧
      (e.isDir = false →
        ∃ f : FsFile, (e.path, f) ∈ treeFiles t ∧ e.external_attr = f.mode <<< 16) := by
  have h := mem_zipEntriesAux_shape [] t e he
  refine ⟨h.1, fun hdir => ?_, fun hfile => ?_⟩
  · have := h.2.1 hdir
    rw [this]
    exact ⟨rfl, rfl⟩
  · rcases h.2.2 hfile with ⟨f, hmem, hform⟩
    refine ⟨f, hmem, ?_⟩
    rw [hform]
    rfl

/-- Witness for claim C8, applied to the file entry for sub/inner.txt of
the sample tree. -/
theorem zip_directory_entry_attrs_witness :
    mkFileEntry ["sub", "inner.txt"] ⟨"inner.txt", [104, 105], 0o644, 6⟩
        ∈ zip_directory (sampleTree 5 6) ∧
      ((mkFileEntry ["sub", "inner.txt"] ⟨"inner.txt", [104, 105], 0o644, 6⟩).date_time
          = (2023, 6, 19, 0, 0, 0) ∧
        ((mkFileEntry ["sub", "inner.txt"] ⟨"inner.txt", [104, 105], 0o644, 6⟩).isDir = true →
          (mkFileEntry ["sub", "inner.txt"] ⟨"inner.txt", [104, 105], 0o644, 6⟩).external_attr
              = 0o755 <<< 16 ||| 0x10 ∧
            (mkFileEntry ["sub", "inner.txt"] ⟨"inner.txt", [104, 105], 0o644, 6⟩).data = []) ∧
        ((mkFileEntry ["sub", "inner.txt"] ⟨"inner.txt", [104, 105], 0o644, 6⟩).isDir = false →
          ∃ f : FsFile,
            ((mkFileEntry ["sub", "inner.txt"] ⟨"inner.txt", [104, 105], 0o644, 6⟩).path, f)
                ∈ treeFiles (sampleTree 5 6) ∧
              (mkFileEntry ["sub", "inner.txt"]
                    ⟨"inner.txt", [104, 105], 0o644, 6⟩).external_attr
                = f.mode <<< 16)) :=
  ⟨by decide,
    zip_directory_entry_attrs (sampleTree 5 6)
      (mkFileEntry ["sub", "inner.txt"] ⟨"inner.txt", [104, 105], 0o644, 6⟩) (by decide)⟩

/-- Splitting a concatenation at a distinguished element: the element lies
in the left part or in the right part, with the matching decomposition. -/
theorem append_cons_cases {α : Type} (xs ys l1 l2 : List α) (e : α)
    (h : xs ++ ys = l1 ++ e :: l2) :
    (∃ l2a, xs = l1 ++ e :: l2a ∧ l2 = l2a ++ ys) ∨
      (∃ l1a, ys = l1a ++ e :: l2 ∧ l1 = xs ++ l1a) := by
  rcases List.append_eq_append_iff.mp h with ⟨a, ha1, ha2⟩ | ⟨c, hc1, hc2⟩
  · exact Or.inr ⟨a, ha2, ha1⟩
  · cases c with
    | nil =>
      right
      refine ⟨[], ?_, by simpa using hc1.symm⟩
      simpa using hc2.symm
    | cons x c' =>
      left
      rcases List.cons_eq_cons.mp hc2 with ⟨rfl, hrest⟩
      exact ⟨c', by rw [hc1], hrest⟩

/-- The subdirectory list contains a subdirectory with the given name. -/
def dirsHasName : FsDirs → String → Prop
  | .nil, _ => False
  | .cons m _ rest, n => n = m ∨ dirsHasName rest n

/-- The canonical directory entry of each named subdirectory is among the
emitted directory entries. -/
theorem mkDirEntry_mem_zipDirEntries (pre : List String) (ds : FsDirs) (n : String)
    (h : dirsHasName ds n) : mkDirEntry (pre ++ [n]) ∈ zipDirEntries pre ds := by
  cases ds with
  | nil => cases h
  | cons m t rest =>
    have h' : n = m ∨ dirsHasName rest n := h
    show mkDirEntry (pre ++ [n]) ∈ mkDirEntry (pre ++ [m]) :: zipDirEntries pre rest
    rcases h' with rfl | h'
    · exact List.mem_cons_self _ _
    · exact List.mem_cons_of_mem _ (mkDirEntry_mem_zipDirEntries pre rest n h')

/-- A proper prefix of l ++ [x] is a prefix of l. -/
theorem prefix_of_proper_prefix_concat {α : Type} {d l : List α} {x : α}
    (h : d <+: l ++ [x]) (hne : d ≠ l ++ [x]) : d <+: l := by
  have hlen : d.length < (l ++ [x]).length := by
    rcases lt_or_eq_of_le h.length_le with hlt | heq
    · exact hlt
    · exact absurd (h.eq_of_length heq) hne
  have hle : d.length ≤ l.length := by
    simp only [List.length_append, List.length_singleton] at hlen
    omega
  exact List.prefix_of_prefix_length_le h (List.prefix_append l [x]) hle

/-- Two prefixes of one list are comparable, so a path strictly between
`pre` and a path of the form (pre ++ [n]) ++ rest is either exactly
pre ++ [n] or strictly below it. -/
theorem prefix_step_cases {α : Type} {pre d ep : List α} {n : α}
    (hd : pre <+: d) (hdne : d ≠ pre) (hdp : d <+: ep) (hpn : pre ++ [n] <+: ep) :
    d = pre ++ [n] ∨ ((pre ++ [n]) <+: d ∧ d ≠ pre ++ [n]) := by
  have hlt : pre.length < d.length := by
    rcases lt_or_eq_of_le hd.length_le with hlt | heq
    · exact hlt
    · exact absurd (hd.eq_of_length heq).symm hdne
  by_cases hcmp : d.length ≤ (pre ++ [n]).length
  · left
    have : d <+: pre ++ [n] := List.prefix_of_prefix_length_le hdp hpn hcmp
    refine this.eq_of_length ?_
    simp only [List.length_append, List.length_singleton] at hcmp ⊢
    omega
  · right
    push_neg at hcmp
    refine ⟨List.prefix_of_prefix_length_le hpn hdp (le_of_lt hcmp), ?_⟩
    intro heq
    rw [heq] at hcmp
    exact lt_irrefl _ hcmp

mutual

/-- Walk-segment invariant: every entry emitted for the subtree at `pre`
has a path strictly below `pre`, and each directory path strictly between
`pre` and the entry's path has its directory entry earlier in the same
segment. -/
theorem zipEntriesAux_ancestors (pre : List String) (t : FsTree) :
    ∀ l1 e l2, zipEntriesAux pre t = l1 ++ e :: l2 →
      ∃ rest, rest ≠ [] ∧ e.path = pre ++ rest ∧
        ∀ d, pre <+: d → d ≠ pre → d <+: e.path → d ≠ e.path → mkDirEntry d ∈ l1 := by
  cases t with
  | mk dirs files =>
    intro l1 e l2 h
    have h' : zipDirEntries pre dirs
        ++ (files.map (fun f => mkFileEntry (pre ++ [f.name]) f)
          ++ zipEntriesChildren pre dirs) = l1 ++ e :: l2 := by
      have h0 : zipDirEntries pre dirs
          ++ files.map (fun f => mkFileEntry (pre ++ [f.name]) f)
          ++ zipEntriesChildren pre dirs = l1 ++ e :: l2 := h
      simpa [List.append_assoc] using h0
    rcases append_cons_cases _ _ _ _ _ h' with ⟨l2a, hxs, _⟩ | ⟨l1a, hys, hl1⟩
    · have hem : e ∈ zipDirEntries pre dirs := by
        rw [hxs]
        exact List.mem_append.mpr (.inr (List.mem_cons_self _ _))
      rcases mem_zipDirEntries pre dirs e hem with ⟨n, rfl⟩
      refine ⟨[n], by simp, rfl, ?_⟩
      intro d hd hdne hdp hdnep
      exfalso
      have hdp2 : d <+: pre ++ [n] := hdp
      have hdp' : d <+: pre := prefix_of_proper_prefix_concat hdp2 hdnep
      exact hdne (hdp'.eq_of_length (le_antisymm hdp'.length_le hd.length_le))
    · rcases append_cons_cases _ _ _ _ _ hys with ⟨l2b, hxs2, _⟩ | ⟨l1b, hys2, hl1b⟩
      · have hem : e ∈ files.map (fun f => mkFileEntry (pre ++ [f.name]) f) := by
          rw [hxs2]
          exact List.mem_append.mpr (.inr (List.mem_cons_self _ _))
        rcases List.mem_map.mp hem with ⟨f, _, rfl⟩
        refine ⟨[f.name], by simp, rfl, ?_⟩
        intro d hd hdne hdp hdnep
        exfalso
        have hdp2 : d <+: pre ++ [f.name] := hdp
        have hdp' : d <+: pre := prefix_of_proper_prefix_concat hdp2 hdnep
        exact hdne (hdp'.eq_of_length (le_antisymm hdp'.length_le hd.length_le))
      · rcases zipEntriesChildren_ancestors pre dirs l1b e l2 hys2 with
          ⟨n, r, hrne, hpath, hhas, hclause⟩
        refine ⟨n :: r, by simp, hpath, ?_⟩
        intro d hd hdne hdp hdnep
        have hpn : pre ++ [n] <+: e.path := by
          rw [hpath]
          exact ⟨r, by simp⟩
        rcases prefix_step_cases hd hdne hdp hpn with rfl | ⟨hd2, hdne2⟩
        · rw [hl1, hl1b]
          exact List.mem_append.mpr
            (.inl (mkDirEntry_mem_zipDirEntries pre dirs n hhas))
        · rw [hl1, hl1b]
          have := hclause d hd2 hdne2 hdp hdnep
          exact List.mem_append.mpr (.inr (List.mem_append.mpr (.inr this)))

/-- The same invariant for the concatenated subdirectory walks: the entry
comes from the walk of one named subdirectory, whose own directory entry
the parent emitted, and intermediate directory paths strictly below that
subdirectory appear earlier in the segment. -/
theorem zipEntriesChildren_ancestors (pre : List String) (ds : FsDirs) :
    ∀ l1 e l2, zipEntriesChildren pre ds = l1 ++ e :: l2 →
      ∃ n r, r ≠ [] ∧ e.path = pre ++ n :: r ∧ dirsHasName ds n ∧
        ∀ d, (pre ++ [n]) <+: d → d ≠ pre ++ [n] → d <+: e.path → d ≠ e.path →
          mkDirEntry d ∈ l1 := by
  cases ds with
  | nil =>
    intro l1 e l2 h
    have h0 : ([] : List ZipEntry) = l1 ++ e :: l2 := h
    exact absurd h0.symm (by simp)
  | cons n t rest =>
    intro l1 e l2 h
    have h' : zipEntriesAux (pre ++ [n]) t ++ zipEntriesChildren pre rest
        = l1 ++ e :: l2 := h
    rcases append_cons_cases _ _ _ _ _ h' with ⟨l2a, hxs, _⟩ | ⟨l1a, hys, hl1⟩
    · rcases zipEntriesAux_ancestors (pre ++ [n]) t l1 e l2a hxs with
        ⟨r, hrne, hpath, hclause⟩
      refine ⟨n, r, hrne, by rw [hpath]; simp, Or.inl rfl, hclause⟩
    · rcases zipEntriesChildren_ancestors pre rest l1a e l2 hys with
        ⟨n', r, hrne, hpath, hhas, hclause⟩
      refine ⟨n', r, hrne, hpath, Or.inr hhas, ?_⟩
      intro d hd hdne hdp hdnep
      rw [hl1]
      exact List.mem_append.mpr (.inr (hclause d hd hdne hdp hdnep))

end

/-- Claim C9: in every archive produced by zip_directory, the directory
entry for each directory on a file entry's relative path (every nonempty
proper prefix of its component path; the archive root has no entry and is
excluded) appears strictly earlier in the entry sequence than the file
entry does. -/
theorem zip_directory_dir_before_file (t : FsTree) (l1 : List ZipEntry) (e : ZipEntry)
    (l2 : List ZipEntry) (h : zip_directory t = l1 ++ e :: l2) (hfile : e.isDir = false)
    (d : List String) (hpre : d <+: e.path) (hproper : d ≠ e.path) (hnil : d ≠ []) :
    mkDirEntry d ∈ l1 := by
  rcases zipEntriesAux_ancestors [] t l1 e l2 h with ⟨r, _, _, hclause⟩
  exact hclause d List.nil_prefix hnil hpre hproper

/-- Witness for claim C9: in the sample tree's archive, the file entry for
sub/inner.txt is preceded by the directory entry for sub. -/
theorem zip_directory_dir_before_file_witness :
    zip_directory (sampleTree 5 6)
        = [mkDirEntry ["sub"], mkFileEntry ["top.txt"] ⟨"top.txt", [33], 0o755, 5⟩]
          ++ mkFileEntry ["sub", "inner.txt"] ⟨"inner.txt", [104, 105], 0o644, 6⟩ :: [] ∧
      mkDirEntry ["sub"]
        ∈ [mkDirEntry ["sub"], mkFileEntry ["top.txt"] ⟨"top.txt", [33], 0o755, 5⟩] :=
  ⟨rfl,
    zip_directory_dir_before_file (sampleTree 5 6)
      [mkDirEntry ["sub"], mkFileEntry ["top.txt"] ⟨"top.txt", [33], 0o755, 5⟩]
      (mkFileEntry ["sub", "inner.txt"] ⟨"inner.txt", [104, 105], 0o644, 6⟩) []
      rfl rfl ["sub"] (by decide) (by decide) (by decide)⟩

/-- Claim C10: zip_directory never emits an entry for the archived root
itself — every entry's relative path is nonempty — and archiving an empty
directory yields an archive with zero entries. -/
theorem zip_directory_relative_no_root :
    (∀ (t : FsTree) (e : ZipEntry), e ∈ zip_directory t → e.path ≠ []) ∧
      zip_directory (FsTree.mk FsDirs.nil []) = [] := by
  constructor
  · intro t e he
    rcases List.append_of_mem he with ⟨s1, s2, hsplit⟩
    rcases zipEntriesAux_ancestors [] t s1 e s2 hsplit with ⟨r, hrne, hpath, _⟩
    rw [hpath]
    simpa using hrne
  · rfl

/-- Witness for claim C10: a concrete entry of the sample tree's archive
has a nonempty relative path. -/
theorem zip_directory_relative_no_root_witness :
    mkDirEntry ["sub"] ∈ zip_directory (sampleTree 5 6) ∧
      (mkDirEntry ["sub"]).path ≠ [] :=
  ⟨by decide, zip_directory_relative_no_root.1 (sampleTree 5 6) (mkDirEntry ["sub"]) (by decide)⟩

/-- os.path.basename for slash-separated paths: the characters after the
last slash. -/
def basename (p : String) : String :=
  String.mk ((p.data.reverse.takeWhile (fun c => c ≠ '/')).reverse)

/-- The value of one loop iteration's `result` in main: entry path, zip
filename, zip contents. -/
structure BuildResult where
  entry_path : String
  zip_filename : String
  zip_contents : List ZipEntry
deriving DecidableEq, Repr

/-- build_and_zip_package from scripts/build-package.py. The external
`kit build` invocation is opaque; its exit code is the input `buildExit`,
and `parent_pkg` is the contents of the pkg directory it leaves behind.
A nonzero exit raises the exception naming the package path; otherwise the
pkg directory is archived. -/
def build_and_zip_package (entry_path : String) (buildExit : Nat) (parent_pkg : FsTree) :
    Except String BuildResult :=
  if buildExit ≠ 0 then .error ("Failed to build package at " ++ entry_path)
  else .ok ⟨entry_path, basename entry_path ++ ".zip", zip_directory parent_pkg⟩

/-- One entry of os.scandir(packages_dir): its name, whether it is a
directory, whether a pkg subdirectory exists inside it, the exit code the
external build command would return for it, and the post-build contents of
its pkg directory. -/
structure PkgDirEntry where
  name : String
  isDir : Bool
  hasPkg : Bool
  buildExit : Nat
  pkgTree : FsTree

/-- The entry paths for which main's loop invokes the external build
command, in order: every eligible entry (a directory containing pkg) up to
and including the first whose build fails, since the raised exception ends
the loop. -/
def buildsAttempted (packagesDir : String) : List PkgDirEntry → List String
  | [] => []
  | e :: rest =>
    if e.isDir && e.hasPkg then
      if e.buildExit ≠ 0 then [packagesDir ++ "/" ++ e.name]
      else (packagesDir ++ "/" ++ e.name) :: buildsAttempted packagesDir rest
    else buildsAttempted packagesDir rest

/-- The `results` list of main's scandir loop: the error from the first
failing eligible build (the exception from build_and_zip_package
propagates out of main), otherwise the ordered list of build results. -/
def scanResults (packagesDir : String) : List PkgDirEntry → Except String (List BuildResult)
  | [] => .ok []
  | e :: rest =>
    if e.isDir && e.hasPkg then
      (build_and_zip_package (packagesDir ++ "/" ++ e.name) e.buildExit e.pkgTree).bind
        (fun r => (scanResults packagesDir rest).map (fun rs => r :: rs))
    else scanResults packagesDir rest

/-- One line of the generated BOOTSTRAPPED_PROCESSES table, reduced to the
triple of strings interpolated into it: the archive filename and the two
referenced paths. -/
structure TableEntry where
  zip_filename : String
  metadata_path : String
  zip_path : String
deriving DecidableEq, Repr

deriving instance DecidableEq for Except

/-- Outcome of one run of main from scripts/build-package.py, lines
100-143 (the scandir loop onward; the optional frontend phase before the
loop touches none of this data): the builds attempted, the file paths
written, the generated table or the propagated error, and the final disk
contents. -/
structure RunOutcome where
  builds : List String
  written : List String
  result : Except String (List TableEntry)
  finalDisk : List String
deriving DecidableEq, Repr

/-- main from scripts/build-package.py (lines 100-143). `disk` is the set
of file paths existing when the loop starts. On loop success, each
package's archive is written to targetPackagesDir/<zip_filename> and its
table line references <entry_path>/metadata.json (with no existence check)
and that archive path; then targetPackagesDir/bootstrapped_processes.rs
and targetDir/packages.zip are written. If the loop raised, the exception
propagates first and nothing is written. -/
def mainRun (packagesDir targetPackagesDir targetDir : String)
    (entries : List PkgDirEntry) (disk : List String) : RunOutcome :=
  let tr := buildsAttempted packagesDir entries
  match scanResults packagesDir entries with
  | .error msg => ⟨tr, [], .error msg, disk⟩
  | .ok results =>
    let zipPaths := results.map (fun r => targetPackagesDir ++ "/" ++ r.zip_filename)
    let table := results.map (fun r =>
      (⟨r.zip_filename, r.entry_path ++ "/metadata.json",
        targetPackagesDir ++ "/" ++ r.zip_filename⟩ : TableEntry))
    let written := zipPaths
      ++ [targetPackagesDir ++ "/bootstrapped_processes.rs", targetDir ++ "/packages.zip"]
    ⟨tr, written, .ok table, disk ++ written⟩

/-- When the scandir loop completes without an exception, its results list
has exactly one build result per eligible entry, in scan order. -/
theorem scanResults_ok (packagesDir : String) :
    ∀ (entries : List PkgDirEntry) (results : List BuildResult),
      scanResults packagesDir entries = .ok results →
      results = (entries.filter (fun e => e.isDir && e.hasPkg)).map (fun e =>
        ⟨packagesDir ++ "/" ++ e.name,
          basename (packagesDir ++ "/" ++ e.name) ++ ".zip",
          zip_directory e.pkgTree⟩) := by
  intro entries
  induction entries with
  | nil =>
    intro results h
    simp only [scanResults, Except.ok.injEq] at h
    simp [← h]
  | cons e rest ih =>
    intro results h
    rw [scanResults] at h
    by_cases hel : (e.isDir && e.hasPkg) = true
    · rw [if_pos hel, build_and_zip_package] at h
      by_cases hb : e.buildExit ≠ 0
      · rw [if_pos hb] at h
        simp only [Except.bind] at h
        cases h
      · rw [if_neg hb] at h
        simp only [Except.bind] at h
        cases hrest : scanResults packagesDir rest with
        | error msg =>
          rw [hrest] at h
          simp only [Except.map] at h
          cases h
        | ok rs =>
          rw [hrest] at h
          simp only [Except.map, Except.ok.injEq] at h
          have hfc : (e :: rest).filter (fun x => x.isDir && x.hasPkg)
              = e :: rest.filter (fun x => x.isDir && x.hasPkg) := by
            simp [List.filter_cons, hel]
          rw [← h, ih rs hrest, hfc, List.map_cons]
    · rw [if_neg hel] at h
      have hfc : (e :: rest).filter (fun x => x.isDir && x.hasPkg)
          = rest.filter (fun x => x.isDir && x.hasPkg) := by
        simp [List.filter_cons, hel]
      rw [ih results h, hfc]

/-- If every eligible entry before `e` builds cleanly, `e` is eligible and
its build fails, the loop raises the exception naming `e`'s path. -/
theorem scanResults_failure (packagesDir : String) :
    ∀ (pre : List PkgDirEntry) (e : PkgDirEntry) (post : List PkgDirEntry),
      (∀ x ∈ pre, (x.isDir && x.hasPkg) = true → x.buildExit = 0) →
      (e.isDir && e.hasPkg) = true → e.buildExit ≠ 0 →
      scanResults packagesDir (pre ++ e :: post)
        = .error ("Failed to build package at " ++ (packagesDir ++ "/" ++ e.name)) := by
  intro pre
  induction pre with
  | nil =>
    intro e post _ hel hfail
    rw [List.nil_append, scanResults, if_pos hel, build_and_zip_package, if_pos hfail]
    rfl
  | cons x pre ih =>
    intro e post hpre hel hfail
    have htail : ∀ y ∈ pre, (y.isDir && y.hasPkg) = true → y.buildExit = 0 :=
      fun y hy => hpre y (List.mem_cons_of_mem x hy)
    have hx2 : (x :: pre) ++ e :: post = x :: (pre ++ e :: post) := rfl
    rw [hx2, scanResults]
    by_cases hx : (x.isDir && x.hasPkg) = true
    · have hx0 : x.buildExit = 0 := hpre x (List.mem_cons_self x _) hx
      rw [if_pos hx, build_and_zip_package, if_neg (by simp [hx0]),
        ih e post htail hel hfail]
      rfl
    · rw [if_neg hx]
      exact ih e post htail hel hfail

/-- Under the same conditions, the external build command runs exactly for
the eligible entries before `e` and then for `e`, and never afterwards. -/
theorem buildsAttempted_failure (packagesDir : String) :
    ∀ (pre : List PkgDirEntry) (e : PkgDirEntry) (post : List PkgDirEntry),
      (∀ x ∈ pre, (x.isDir && x.hasPkg) = true → x.buildExit = 0) →
      (e.isDir && e.hasPkg) = true → e.buildExit ≠ 0 →
      buildsAttempted packagesDir (pre ++ e :: post)
        = (pre.filter (fun x => x.isDir && x.hasPkg)).map
            (fun x => packagesDir ++ "/" ++ x.name)
          ++ [packagesDir ++ "/" ++ e.name] := by
  intro pre
  induction pre with
  | nil =>
    intro e post _ hel hfail
    rw [List.nil_append, buildsAttempted, if_pos hel, if_pos hfail]
    rfl
  | cons x pre ih =>
    intro e post hpre hel hfail
    have htail : ∀ y ∈ pre, (y.isDir && y.hasPkg) = true → y.buildExit = 0 :=
      fun y hy => hpre y (List.mem_cons_of_mem x hy)
    have hx2 : (x :: pre) ++ e :: post = x :: (pre ++ e :: post) := rfl
    rw [hx2, buildsAttempted]
    by_cases hx : (x.isDir && x.hasPkg) = true
    · have hx0 : x.buildExit = 0 := hpre x (List.mem_cons_self x _) hx
      rw [if_pos hx, if_neg (by simp [hx0]), ih e post htail hel hfail]
      have hfc : (x :: pre).filter (fun y => y.isDir && y.hasPkg)
          = x :: pre.filter (fun y => y.isDir && y.hasPkg) := by
        simp [List.filter_cons, hx]
      rw [hfc, List.map_cons, List.cons_append]
    · rw [if_neg hx, ih e post htail hel hfail]
      have hfc : (x :: pre).filter (fun y => y.isDir && y.hasPkg)
          = pre.filter (fun y => y.isDir && y.hasPkg) := by
        simp [List.filter_cons, hx]
      rw [hfc]

/-- mainRun when the loop raised: the error propagates, nothing is
written, the disk is unchanged. -/
theorem mainRun_error (packagesDir targetPackagesDir targetDir : String)
    (entries : List PkgDirEntry) (disk : List String) (msg : String)
    (h : scanResults packagesDir entries = .error msg) :
    mainRun packagesDir targetPackagesDir targetDir entries disk
      = ⟨buildsAttempted packagesDir entries, [], .error msg, disk⟩ := by
  unfold mainRun
  rw [h]

/-- mainRun when the loop completed: the written files and the table, as
functions of the loop results. -/
theorem mainRun_ok (packagesDir targetPackagesDir targetDir : String)
    (entries : List PkgDirEntry) (disk : List String) (results : List BuildResult)
    (h : scanResults packagesDir entries = .ok results) :
    mainRun packagesDir targetPackagesDir targetDir entries disk
      = ⟨buildsAttempted packagesDir entries,
          results.map (fun r => targetPackagesDir ++ "/" ++ r.zip_filename)
            ++ [targetPackagesDir ++ "/bootstrapped_processes.rs",
              targetDir ++ "/packages.zip"],
          .ok (results.map (fun r =>
            (⟨r.zip_filename, r.entry_path ++ "/metadata.json",
              targetPackagesDir ++ "/" ++ r.zip_filename⟩ : TableEntry))),
          disk ++ (results.map (fun r => targetPackagesDir ++ "/" ++ r.zip_filename)
            ++ [targetPackagesDir ++ "/bootstrapped_processes.rs",
              targetDir ++ "/packages.zip"])⟩ := by
  unfold mainRun
  rw [h]

/-- Claim C3: if the external build command for one package exits nonzero
(each eligible package scanned before it having built cleanly), the whole
batch aborts with the error naming that package's path: no build command
runs for any later entry, nothing is written - in particular no
bootstrapped_processes.rs and no packages.zip - and the disk is unchanged. -/
theorem mainRun_build_failure_aborts (packagesDir targetPackagesDir targetDir : String)
    (pre : List PkgDirEntry) (e : PkgDirEntry) (post : List PkgDirEntry)
    (disk : List String)
    (hpre : ∀ x ∈ pre, (x.isDir && x.hasPkg) = true → x.buildExit = 0)
    (hel : (e.isDir && e.hasPkg) = true) (hfail : e.buildExit ≠ 0) :
    (mainRun packagesDir targetPackagesDir targetDir (pre ++ e :: post) disk).result
        = .error ("Failed to build package at " ++ (packagesDir ++ "/" ++ e.name)) ∧
      (mainRun packagesDir targetPackagesDir targetDir (pre ++ e :: post) disk).written
        = [] ∧
      (mainRun packagesDir targetPackagesDir targetDir (pre ++ e :: post) disk).builds
        = (pre.filter (fun x => x.isDir && x.hasPkg)).map
            (fun x => packagesDir ++ "/" ++ x.name)
          ++ [packagesDir ++ "/" ++ e.name] ∧
      (mainRun packagesDir targetPackagesDir targetDir (pre ++ e :: post) disk).finalDisk
        = disk := by
  have hs := scanResults_failure packagesDir pre e post hpre hel hfail
  have hb := buildsAttempted_failure packagesDir pre e post hpre hel hfail
  rw [mainRun_error packagesDir targetPackagesDir targetDir (pre ++ e :: post) disk _ hs]
  exact ⟨rfl, rfl, hb, rfl⟩

/-- A sample eligible scandir entry that builds cleanly, with an empty pkg
directory. -/
def samplePkgOk (n : String) : PkgDirEntry :=
  ⟨n, true, true, 0, FsTree.mk .nil []⟩

/-- A sample eligible scandir entry whose build command exits 5. -/
def samplePkgFail : PkgDirEntry :=
  ⟨"chess", true, true, 5, FsTree.mk .nil []⟩

/-- A sample scandir entry that is a plain file, hence skipped. -/
def sampleNonDir : PkgDirEntry :=
  ⟨"README.md", false, false, 0, FsTree.mk .nil []⟩

/-- Witness for claim C3: with app_store building cleanly, chess failing
and homepage after it, the run errors on chess's path, writes nothing, and
never builds homepage. -/
theorem mainRun_build_failure_aborts_witness :
    (∀ x ∈ [samplePkgOk "app_store"], (x.isDir && x.hasPkg) = true → x.buildExit = 0) ∧
      (samplePkgFail.isDir && samplePkgFail.hasPkg) = true ∧
      samplePkgFail.buildExit ≠ 0 ∧
      ((mainRun "kinode/packages" "target/packages" "target"
            ([samplePkgOk "app_store"] ++ samplePkgFail :: [samplePkgOk "homepage"])
            []).result
          = .error ("Failed to build package at "
              ++ ("kinode/packages" ++ "/" ++ samplePkgFail.name)) ∧
        (mainRun "kinode/packages" "target/packages" "target"
            ([samplePkgOk "app_store"] ++ samplePkgFail :: [samplePkgOk "homepage"])
            []).written = [] ∧
        (mainRun "kinode/packages" "target/packages" "target"
            ([samplePkgOk "app_store"] ++ samplePkgFail :: [samplePkgOk "homepage"])
            []).builds
          = (([samplePkgOk "app_store"].filter (fun x => x.isDir && x.hasPkg)).map
              (fun x => "kinode/packages" ++ "/" ++ x.name))
            ++ ["kinode/packages" ++ "/" ++ samplePkgFail.name] ∧
        (mainRun "kinode/packages" "target/packages" "target"
            ([samplePkgOk "app_store"] ++ samplePkgFail :: [samplePkgOk "homepage"])
            []).finalDisk = []) :=
  ⟨by decide, by decide, by decide,
    mainRun_build_failure_aborts "kinode/packages" "target/packages" "target"
      [samplePkgOk "app_store"] samplePkgFail [samplePkgOk "homepage"] []
      (by decide) (by decide) (by decide)⟩

/-- Claim C4: whenever the run completes and the table is generated, the
table has exactly one entry per discovered package (immediate scandir
entry that is a directory and contains pkg), in scan order, with no
duplicates and no omissions; each entry carries that package's archive
filename, metadata path and archive path. -/
theorem mainRun_table_complete (packagesDir targetPackagesDir targetDir : String)
    (entries : List PkgDirEntry) (disk : List String) (table : List TableEntry)
    (h : (mainRun packagesDir targetPackagesDir targetDir entries disk).result
      = .ok table) :
    table = (entries.filter (fun e => e.isDir && e.hasPkg)).map (fun e =>
      (⟨basename (packagesDir ++ "/" ++ e.name) ++ ".zip",
        packagesDir ++ "/" ++ e.name ++ "/metadata.json",
        targetPackagesDir ++ "/" ++ (basename (packagesDir ++ "/" ++ e.name) ++ ".zip")⟩
        : TableEntry)) := by
  cases hscan : scanResults packagesDir entries with
  | error msg =>
    rw [mainRun_error packagesDir targetPackagesDir targetDir entries disk msg hscan] at h
    simp at h
  | ok results =>
    rw [mainRun_ok packagesDir targetPackagesDir targetDir entries disk results hscan] at h
    simp only [Except.ok.injEq] at h
    rw [← h, scanResults_ok packagesDir entries results hscan, List.map_map]
    rfl

/-- Witness for claim C4: a run over one real package and one skipped
plain file generates exactly the one-entry table for the package. -/
theorem mainRun_table_complete_witness :
    (mainRun "kinode/packages" "target/packages" "target"
        [samplePkgOk "app_store", sampleNonDir] []).result
        = .ok [⟨"app_store.zip", "kinode/packages/app_store/metadata.json",
            "target/packages/app_store.zip"⟩] ∧
      ([⟨"app_store.zip", "kinode/packages/app_store/metadata.json",
          "target/packages/app_store.zip"⟩] : List TableEntry)
        = ([samplePkgOk "app_store", sampleNonDir].filter
              (fun e => e.isDir && e.hasPkg)).map (fun e =>
            (⟨basename ("kinode/packages" ++ "/" ++ e.name) ++ ".zip",
              "kinode/packages" ++ "/" ++ e.name ++ "/metadata.json",
              "target/packages" ++ "/" ++ (basename ("kinode/packages" ++ "/" ++ e.name)
                ++ ".zip")⟩ : TableEntry)) :=
  ⟨by decide,
    mainRun_table_complete "kinode/packages" "target/packages" "target"
      [samplePkgOk "app_store", sampleNonDir] []
      [⟨"app_store.zip", "kinode/packages/app_store/metadata.json",
        "target/packages/app_store.zip"⟩] (by decide)⟩

/-- Claim C5 (amended): when the table is generated, every archive path a
table entry references exists on disk, because main writes each archive to
target/packages before emitting its line. (The metadata paths are emitted
with no existence check at all: generation cannot fail on a missing
metadata.json - see the counterexample.) -/
theorem mainRun_archive_paths_exist (packagesDir targetPackagesDir targetDir : String)
    (entries : List PkgDirEntry) (disk : List String) (table : List TableEntry)
    (h : (mainRun packagesDir targetPackagesDir targetDir entries disk).result
      = .ok table) :
    ∀ te ∈ table, te.zip_path
      ∈ (mainRun packagesDir targetPackagesDir targetDir entries disk).finalDisk := by
  cases hscan : scanResults packagesDir entries with
  | error msg =>
    rw [mainRun_error packagesDir targetPackagesDir targetDir entries disk msg hscan] at h
    simp at h
  | ok results =>
    rw [mainRun_ok packagesDir targetPackagesDir targetDir entries disk results hscan]
      at h ⊢
    simp only [Except.ok.injEq] at h
    intro te hte
    rw [← h] at hte
    rcases List.mem_map.mp hte with ⟨r, hr, rfl⟩
    show targetPackagesDir ++ "/" ++ r.zip_filename
      ∈ disk ++ (results.map (fun r => targetPackagesDir ++ "/" ++ r.zip_filename)
        ++ [targetPackagesDir ++ "/bootstrapped_processes.rs",
          targetDir ++ "/packages.zip"])
    refine List.mem_append.mpr (.inr (List.mem_append.mpr (.inl ?_)))
    exact List.mem_map.mpr ⟨r, hr, rfl⟩

/-- Witness for claim C5's amended theorem: in the one-package run, the
referenced archive path target/packages/app_store.zip is on the final
disk. -/
theorem mainRun_archive_paths_exist_witness :
    (mainRun "kinode/packages" "target/packages" "target"
        [samplePkgOk "app_store"] []).result
        = .ok [⟨"app_store.zip", "kinode/packages/app_store/metadata.json",
            "target/packages/app_store.zip"⟩] ∧
      (⟨"app_store.zip", "kinode/packages/app_store/metadata.json",
          "target/packages/app_store.zip"⟩ : TableEntry)
        ∈ [(⟨"app_store.zip", "kinode/packages/app_store/metadata.json",
            "target/packages/app_store.zip"⟩ : TableEntry)] ∧
      (⟨"app_store.zip", "kinode/packages/app_store/metadata.json",
          "target/packages/app_store.zip"⟩ : TableEntry).zip_path
        ∈ (mainRun "kinode/packages" "target/packages" "target"
            [samplePkgOk "app_store"] []).finalDisk :=
  ⟨by decide, by decide,
    mainRun_archive_paths_exist "kinode/packages" "target/packages" "target"
      [samplePkgOk "app_store"] []
      [⟨"app_store.zip", "kinode/packages/app_store/metadata.json",
        "target/packages/app_store.zip"⟩] (by decide)
      ⟨"app_store.zip", "kinode/packages/app_store/metadata.json",
        "target/packages/app_store.zip"⟩ (by decide)⟩

/-- Counterexample for claim C5: a package directory with a pkg
subdirectory but no metadata.json on disk. The claim says generation must
fail fatally naming the missing path; instead main succeeds, generating a
table entry that references the nonexistent metadata path (the code never
checks metadata.json exists - the archive path is the only one it itself
creates). -/
theorem mainRun_missing_metadata_not_fatal :
    (mainRun "kinode/packages" "target/packages" "target"
        [samplePkgOk "chess"] []).result
        = .ok [⟨"chess.zip", "kinode/packages/chess/metadata.json",
            "target/packages/chess.zip"⟩] ∧
      "kinode/packages/chess/metadata.json"
        ∉ (mainRun "kinode/packages" "target/packages" "target"
            [samplePkgOk "chess"] []).finalDisk := by
  exact ⟨by decide, by decide⟩

/-- One external toolchain invocation: subprocess.check_call's
CalledProcessError carries exactly this - the argument vector and the exit
status. -/
structure ExtCall where
  cmd : List String
  returncode : Nat
deriving DecidableEq, Repr

/-- An exception compile_process can raise: ValueError from max() over an
empty glob (the src directory does not exist), or CalledProcessError from
the first failing toolchain step. -/
inductive PyErr where
  | valueError
  | calledProcessError (e : ExtCall)
deriving DecidableEq, Repr

/-- Step 1's argv: compile the shared wit directory to
target/bindings/<name>/target.wasm. -/
def witCmd (process_dir root_dir : String) : List String :=
  ["wasm-tools", "component", "wit", root_dir ++ "/wit", "-o",
    process_dir ++ "/target/bindings/" ++ basename process_dir ++ "/target.wasm",
    "--wasm"]

/-- Step 2's argv: compile the process crate. The vector is fixed - it
mentions no path and no process name (the process directory enters only
through the working directory set by os.chdir). -/
def cargoCmd : List String :=
  ["cargo", "+nightly", "build", "--release", "--no-default-features",
    "--target", "wasm32-wasi"]

/-- The core module path cargo produces for the process. -/
def coreWasmPath (process_dir : String) : String :=
  process_dir ++ "/target/wasm32-wasi/release/" ++ basename process_dir ++ ".wasm"

/-- The adapted module path: the source computes it with
wasm_file.replace(".wasm", "_adapted.wasm"), whose one occurrence of
".wasm" in this pipeline is the extension. -/
def adaptedWasmPath (process_dir : String) : String :=
  process_dir ++ "/target/wasm32-wasi/release/" ++ basename process_dir
    ++ "_adapted.wasm"

/-- Step 3's argv: adapt the core module with the preview1 adapter. -/
def adaptCmd (process_dir root_dir : String) : List String :=
  ["wasm-tools", "component", "new", coreWasmPath process_dir, "-o",
    adaptedWasmPath process_dir, "--adapt",
    root_dir ++ "/wasi_snapshot_preview1.wasm"]

/-- Step 4's argv: embed the world named process and write the final
component to pkg_dir/<name>.wasm. -/
def embedCmd (process_dir pkg_dir root_dir : String) : List String :=
  ["wasm-tools", "component", "embed", root_dir ++ "/wit", "--world", "process",
    adaptedWasmPath process_dir, "-o",
    pkg_dir ++ "/" ++ basename process_dir ++ ".wasm"]

/-- The externally observable inputs of one compile_process call: the
mtimes its two stat passes would see (the glob results over src/** and the
existing component, if any) and the exit codes its four toolchain
invocations would return. -/
structure CompileInput where
  process_dir : String
  pkg_dir : String
  root_dir : String
  srcMtimes : List Nat
  wasmMtime : Option Nat
  witExit : Nat
  cargoExit : Nat
  adaptExit : Nat
  embedExit : Nat
deriving DecidableEq, Repr

/-- What one compile_process call did: the commands invoked in order, the
exception that ended it (if any), and whether the final component file at
pkg_dir/<name>.wasm was written (step 4's tool writes it on success). -/
structure CompileResult where
  calls : List ExtCall
  err : Option PyErr
  finalWritten : Bool
deriving DecidableEq, Repr

/-- compile_process from modules/chess/build.py. It computes src_mtime
(max over the glob; max() raises ValueError when the glob is empty) and
wasm_mtime (0 when no component exists), then - without ever reading
either value again, exactly as in the source - runs the four steps via
subprocess.check_call, which raises CalledProcessError on the first
nonzero exit, ending the function. The staging between steps 1 and 2
(os.chdir, os.makedirs, copytree, the empty world file) does not fail in
this model. -/
def compile_process (i : CompileInput) : CompileResult :=
  match i.srcMtimes.max? with
  | none => ⟨[], some .valueError, false⟩
  | some src_mtime =>
    let wasm_mtime := match i.wasmMtime with
      | some m => m
      | none => 0
    let c1 : ExtCall := ⟨witCmd i.process_dir i.root_dir, i.witExit⟩
    if i.witExit ≠ 0 then ⟨[c1], some (.calledProcessError c1), false⟩
    else
      let c2 : ExtCall := ⟨cargoCmd, i.cargoExit⟩
      if i.cargoExit ≠ 0 then ⟨[c1, c2], some (.calledProcessError c2), false⟩
      else
        let c3 : ExtCall := ⟨adaptCmd i.process_dir i.root_dir, i.adaptExit⟩
        if i.adaptExit ≠ 0 then ⟨[c1, c2, c3], some (.calledProcessError c3), false⟩
        else
          let c4 : ExtCall :=
            ⟨embedCmd i.process_dir i.pkg_dir i.root_dir, i.embedExit⟩
          if i.embedExit ≠ 0 then ⟨[c1, c2, c3, c4], some (.calledProcessError c4), false⟩
          else ⟨[c1, c2, c3, c4], none, true⟩

/-- Claim C7: the staleness data (maximum source mtime versus the existing
component's mtime) is computed but never acted on. Provided the source
glob is nonempty (so max() itself does not raise), any two mtime
configurations produce identical behaviour - the same commands run, the
same outcome, the same final write - and when all four tools succeed, all
four steps run and the component is rebuilt even if it is newer than every
source file. -/
theorem compile_process_ignores_mtimes (pd kd rd : String)
    (s1 s2 : List Nat) (w1 w2 : Option Nat) (e1 e2 e3 e4 : Nat)
    (h1 : s1 ≠ []) (h2 : s2 ≠ []) :
    compile_process ⟨pd, kd, rd, s1, w1, e1, e2, e3, e4⟩
        = compile_process ⟨pd, kd, rd, s2, w2, e1, e2, e3, e4⟩ ∧
      (e1 = 0 → e2 = 0 → e3 = 0 → e4 = 0 →
        (compile_process ⟨pd, kd, rd, s1, w1, e1, e2, e3, e4⟩).calls.length = 4 ∧
          (compile_process ⟨pd, kd, rd, s1, w1, e1, e2, e3, e4⟩).finalWritten = true) := by
  rcases hs1 : s1.max? with _ | m1
  · exact absurd (List.max?_eq_none_iff.mp hs1) h1
  rcases hs2 : s2.max? with _ | m2
  · exact absurd (List.max?_eq_none_iff.mp hs2) h2
  constructor
  · show compile_process ⟨pd, kd, rd, s1, w1, e1, e2, e3, e4⟩
      = compile_process ⟨pd, kd, rd, s2, w2, e1, e2, e3, e4⟩
    unfold compile_process
    rw [hs1, hs2]
  · intro he1 he2 he3 he4
    unfold compile_process
    rw [hs1]
    simp [he1, he2, he3, he4]

/-- Witness for claim C7: a chess-engine process whose existing component
(mtime 999) is newer than every source file (max mtime 100) behaves
identically to one with no existing component and fresher sources; with
all tools succeeding, all four steps run and the component is rewritten. -/
theorem compile_process_ignores_mtimes_witness :
    ([100] : List Nat) ≠ [] ∧ ([5] : List Nat) ≠ [] ∧
      (compile_process ⟨"kinode/chess/chess-engine", "kinode/chess/pkg",
            "kinode/chess", [100], some 999, 0, 0, 0, 0⟩
          = compile_process ⟨"kinode/chess/chess-engine", "kinode/chess/pkg",
            "kinode/chess", [5], none, 0, 0, 0, 0⟩ ∧
        ((0 : Nat) = 0 → (0 : Nat) = 0 → (0 : Nat) = 0 → (0 : Nat) = 0 →
          (compile_process ⟨"kinode/chess/chess-engine", "kinode/chess/pkg",
              "kinode/chess", [100], some 999, 0, 0, 0, 0⟩).calls.length = 4 ∧
            (compile_process ⟨"kinode/chess/chess-engine", "kinode/chess/pkg",
              "kinode/chess", [100], some 999, 0, 0, 0, 0⟩).finalWritten = true)) :=
  ⟨by decide, by decide,
    compile_process_ignores_mtimes "kinode/chess/chess-engine" "kinode/chess/pkg"
      "kinode/chess" [100] [5] (some 999) none 0 0 0 0 (by decide) (by decide)⟩

/-- Claim C6 (amended): the final component is written only when all four
steps succeed; the first failing step raises a fatal CalledProcessError
carrying that step's full command line and exit status - identifying the
failing step - and no later step runs for that process. The error's
content names the process only for steps whose command lines embed
process-derived paths (interface, adapt, embed); for the crate-compile
step the command line is fixed and the error does not contain the process
name (see the counterexample). -/
theorem compile_process_step_failure (i : CompileInput) (hs : i.srcMtimes ≠ []) :
    ((compile_process i).finalWritten = true ↔
      i.witExit = 0 ∧ i.cargoExit = 0 ∧ i.adaptExit = 0 ∧ i.embedExit = 0) ∧
      (i.witExit ≠ 0 →
        (compile_process i).calls = [⟨witCmd i.process_dir i.root_dir, i.witExit⟩] ∧
          (compile_process i).err
            = some (.calledProcessError ⟨witCmd i.process_dir i.root_dir, i.witExit⟩)) ∧
      (i.witExit = 0 → i.cargoExit ≠ 0 →
        (compile_process i).calls
            = [⟨witCmd i.process_dir i.root_dir, 0⟩, ⟨cargoCmd, i.cargoExit⟩] ∧
          (compile_process i).err
            = some (.calledProcessError ⟨cargoCmd, i.cargoExit⟩)) ∧
      (i.witExit = 0 → i.cargoExit = 0 → i.adaptExit ≠ 0 →
        (compile_process i).calls
            = [⟨witCmd i.process_dir i.root_dir, 0⟩, ⟨cargoCmd, 0⟩,
              ⟨adaptCmd i.process_dir i.root_dir, i.adaptExit⟩] ∧
          (compile_process i).err
            = some (.calledProcessError
                ⟨adaptCmd i.process_dir i.root_dir, i.adaptExit⟩)) ∧
      (i.witExit = 0 → i.cargoExit = 0 → i.adaptExit = 0 → i.embedExit ≠ 0 →
        (compile_process i).calls
            = [⟨witCmd i.process_dir i.root_dir, 0⟩, ⟨cargoCmd, 0⟩,
              ⟨adaptCmd i.process_dir i.root_dir, 0⟩,
              ⟨embedCmd i.process_dir i.pkg_dir i.root_dir, i.embedExit⟩] ∧
          (compile_process i).err
            = some (.calledProcessError
                ⟨embedCmd i.process_dir i.pkg_dir i.root_dir, i.embedExit⟩)) := by
  rcases hsm : i.srcMtimes.max? with _ | m
  · exact absurd (List.max?_eq_none_iff.mp hsm) hs
  unfold compile_process
  rw [hsm]
  refine ⟨?_, ?_, ?_, ?_, ?_⟩
  · constructor
    · intro hw
      by_cases h1 : i.witExit = 0 <;> by_cases h2 : i.cargoExit = 0 <;>
        by_cases h3 : i.adaptExit = 0 <;> by_cases h4 : i.embedExit = 0 <;>
        simp_all
    · rintro ⟨h1, h2, h3, h4⟩
      simp [h1, h2, h3, h4]
  · intro h1
    simp [h1]
  · intro h1 h2
    simp [h1, h2]
  · intro h1 h2 h3
    simp [h1, h2, h3]
  · intro h1 h2 h3 h4
    simp [h1, h2, h3, h4]

/-- Counterexample for claim C6: when the crate-compile step fails (cargo
exits 101 for process chess-engine), the raised CalledProcessError carries
only the fixed argv [cargo, +nightly, build, --release,
--no-default-features, --target, wasm32-wasi] and the exit status; no part
of it contains the process name, so the error does not identify the
process, refuting the claim that every failing step's fatal error does. -/
theorem compile_process_cargo_error_anonymous :
    (compile_process ⟨"kinode/chess/chess-engine", "kinode/chess/pkg", "kinode/chess",
          [100], none, 0, 101, 0, 0⟩).err
        = some (.calledProcessError ⟨cargoCmd, 101⟩) ∧
      basename "kinode/chess/chess-engine" = "chess-engine" ∧
      ∀ a ∈ cargoCmd, ¬ ("chess-engine".data <:+: a.data) :=
  ⟨by decide, by decide, by decide⟩

/-- The concrete compile_process input used by the C6 witness: a
chess-engine process whose adapt step (step 3) exits 7. -/
def sampleAdaptFailInput : CompileInput :=
  ⟨"kinode/chess/chess-engine", "kinode/chess/pkg", "kinode/chess",
    [100], some 50, 0, 0, 7, 0⟩

/-- Witness for claim C6's amended theorem, at an input whose adapt step
fails: the first two steps ran, the adapt command's error is raised with
its argv and exit status, the embed step never runs and the final
component is not written. -/
theorem compile_process_step_failure_witness :
    sampleAdaptFailInput.srcMtimes ≠ [] ∧
      (((compile_process sampleAdaptFailInput).finalWritten = true ↔
        sampleAdaptFailInput.witExit = 0 ∧ sampleAdaptFailInput.cargoExit = 0 ∧
          sampleAdaptFailInput.adaptExit = 0 ∧ sampleAdaptFailInput.embedExit = 0) ∧
        (sampleAdaptFailInput.witExit ≠ 0 →
          (compile_process sampleAdaptFailInput).calls
              = [⟨witCmd sampleAdaptFailInput.process_dir sampleAdaptFailInput.root_dir,
                  sampleAdaptFailInput.witExit⟩] ∧
            (compile_process sampleAdaptFailInput).err
              = some (.calledProcessError
                  ⟨witCmd sampleAdaptFailInput.process_dir sampleAdaptFailInput.root_dir,
                    sampleAdaptFailInput.witExit⟩)) ∧
        (sampleAdaptFailInput.witExit = 0 → sampleAdaptFailInput.cargoExit ≠ 0 →
          (compile_process sampleAdaptFailInput).calls
              = [⟨witCmd sampleAdaptFailInput.process_dir sampleAdaptFailInput.root_dir, 0⟩,
                ⟨cargoCmd, sampleAdaptFailInput.cargoExit⟩] ∧
            (compile_process sampleAdaptFailInput).err
              = some (.calledProcessError ⟨cargoCmd, sampleAdaptFailInput.cargoExit⟩)) ∧
        (sampleAdaptFailInput.witExit = 0 → sampleAdaptFailInput.cargoExit = 0 →
          sampleAdaptFailInput.adaptExit ≠ 0 →
          (compile_process sampleAdaptFailInput).calls
              = [⟨witCmd sampleAdaptFailInput.process_dir sampleAdaptFailInput.root_dir, 0⟩,
                ⟨cargoCmd, 0⟩,
                ⟨adaptCmd sampleAdaptFailInput.process_dir sampleAdaptFailInput.root_dir,
                  sampleAdaptFailInput.adaptExit⟩] ∧
            (compile_process sampleAdaptFailInput).err
              = some (.calledProcessError
                  ⟨adaptCmd sampleAdaptFailInput.process_dir sampleAdaptFailInput.root_dir,
                    sampleAdaptFailInput.adaptExit⟩)) ∧
        (sampleAdaptFailInput.witExit = 0 → sampleAdaptFailInput.cargoExit = 0 →
          sampleAdaptFailInput.adaptExit = 0 → sampleAdaptFailInput.embedExit ≠ 0 →
          (compile_process sampleAdaptFailInput).calls
              = [⟨witCmd sampleAdaptFailInput.process_dir sampleAdaptFailInput.root_dir, 0⟩,
                ⟨cargoCmd, 0⟩,
                ⟨adaptCmd sampleAdaptFailInput.process_dir sampleAdaptFailInput.root_dir, 0⟩,
                ⟨embedCmd sampleAdaptFailInput.process_dir sampleAdaptFailInput.pkg_dir
                    sampleAdaptFailInput.root_dir,
                  sampleAdaptFailInput.embedExit⟩] ∧
            (compile_process sampleAdaptFailInput).err
              = some (.calledProcessError
                  ⟨embedCmd sampleAdaptFailInput.process_dir sampleAdaptFailInput.pkg_dir
                      sampleAdaptFailInput.root_dir,
                    sampleAdaptFailInput.embedExit⟩))) :=
  ⟨by decide, compile_process_step_failure sampleAdaptFailInput (by decide)⟩

/-- The two control-plane requests the install clients POST, in protocol
order: NewPackage (upload) then Install (activate). -/
inductive InstallReq where
  | newPackage
  | install
deriving DecidableEq, Repr

/-- What one run of an install client's request phase did: the requests
POSTed in order, the diagnostic lines printed (their fixed prefixes), the
process exit code, and whether success was reported. -/
structure InstallOutcome where
  sent : List InstallReq
  printed : List String
  exitCode : Nat
  successReported : Bool
deriving DecidableEq, Repr

/-- The request phase of start-package.py (lines 106-123), as a function
of the two HTTP statuses the node's control endpoint returns. The
upload-failure branch prints its message, but its sys.exit(1) is commented
out in the source, so control falls through and the Install request is
always POSTed; the exit code and the final message depend only on the
Install response. -/
def start_package_flow (newStatus installStatus : Nat) : InstallOutcome :=
  let uploadMsgs : List String :=
    if newStatus ≠ 200 then ["Failed to send new package request, response: "] else []
  if installStatus ≠ 200 then
    ⟨[.newPackage, .install],
      uploadMsgs ++ ["Failed to send install package request, response: "], 1, false⟩
  else
    ⟨[.newPackage, .install],
      uploadMsgs ++ ["Successfully installed package: "], 0, true⟩

/-- The request phase of modules/chess/start-package.py (lines 107-124):
a non-200 NewPackage response prints the upload failure and exits 1
before the Install request is ever built or sent; a non-200 Install
response exits 1; otherwise success is reported with exit code 0. -/
def chess_start_package_flow (newStatus installStatus : Nat) : InstallOutcome :=
  if newStatus ≠ 200 then
    ⟨[.newPackage], ["Failed to send new package request, status: "], 1, false⟩
  else if installStatus ≠ 200 then
    ⟨[.newPackage, .install],
      ["Failed to send install package request, status: "], 1, false⟩
  else
    ⟨[.newPackage, .install], ["Successfully installed package: "], 0, true⟩

/-- Claim C1, evaluated at the failing input (NewPackage answered 500,
Install answered 200): start-package.py prints the upload failure yet
still sends the Install request, exits 0 and reports success, because the
sys.exit(1) in its upload-failure branch is commented out in the source;
the sibling modules/chess/start-package.py at the same input stops after
the upload failure with exit code 1 and never sends Install, which is the
behaviour the claim describes. -/
theorem start_package_upload_failure_still_installs :
    (start_package_flow 500 200).sent = [.newPackage, .install] ∧
      (start_package_flow 500 200).printed
        = ["Failed to send new package request, response: ",
          "Successfully installed package: "] ∧
      (start_package_flow 500 200).exitCode = 0 ∧
      (start_package_flow 500 200).successReported = true ∧
      (chess_start_package_flow 500 200).sent = [.newPackage] ∧
      (chess_start_package_flow 500 200).exitCode = 1 ∧
      (chess_start_package_flow 500 200).successReported = false := by
  decide
